import Mathlib

/-!
Verification development for `src/CordovaProject.ts`, a TypeScript façade over
the Cordova command-line tool.  The TypeScript module is shallowly embedded:

* JavaScript string primitives (`split`, `indexOf`, `join`, `trim`, the two
  regular expressions used by `getPlugins`/`getPlatforms`) are modelled by
  executable Lean functions on `String` / `List Char` with the exact JS
  semantics used by the module (lazy groups, `$`-anchoring, leftmost match).
* Q deferred objects are modelled by the ordered list of `resolve`/`reject`
  calls made on them; a promise's observable outcome is the first settle call
  (later calls are no-ops for a Q deferred).
* A child process is modelled by the stdout chunks delivered to the `data`
  handler plus a terminal event: either `exit` with an integer code or a
  spawn-level `error` carrying the raw error.
-/

/-! ## JavaScript string primitives -/

/-- The whitespace characters relevant to JS `\s` / `trim` on CLI output. -/
def jsWhitespace (c : Char) : Bool :=
  c == ' ' || c == '\t' || c == '\n' || c == '\r'

/-- `leadsWith pat s` is true when `pat` is an initial segment of `s`. -/
def leadsWith : List Char → List Char → Bool
  | [], _ => true
  | _ :: _, [] => false
  | a :: as, b :: bs => a == b && leadsWith as bs

/-- Index of the first occurrence of `pat` in `s`, like JS `String.indexOf`
(restricted to a found/not-found answer as a `Nat` index). -/
def firstOccur (pat : List Char) : List Char → Option Nat
  | [] => if pat.isEmpty then some 0 else none
  | c :: rest =>
    if leadsWith pat (c :: rest) then some 0
    else (firstOccur pat rest).map (· + 1)

/-- JS `s.indexOf(pat)`: the index of the first occurrence, or `-1`. -/
def jsIndexOf (pat s : String) : Int :=
  match firstOccur pat.data s.data with
  | some n => (n : Int)
  | none => -1

/-- The module's substring test `s.indexOf(pat) > -1`. -/
def containsSub (pat s : String) : Bool :=
  decide (jsIndexOf pat s > -1)

/-- JS `String.split` with a one-character separator: splits at every
occurrence, keeping empty pieces (so `"a\n"` splits into `["a", ""]`). -/
def splitCh (sep : Char) : List Char → List (List Char)
  | [] => [[]]
  | c :: rest =>
    if c == sep then [] :: splitCh sep rest
    else
      match splitCh sep rest with
      | [] => [[c]]
      | piece :: pieces => (c :: piece) :: pieces

/-- The module's `result.split('\n')` applied to captured output. -/
def jsLines (s : String) : List String :=
  (splitCh '\n' s.data).map (fun cs => String.mk cs)

/-- JS `Array.join(sep)`. -/
def jsJoin (sep : String) : List String → String
  | [] => ""
  | [s] => s
  | s :: rest => s ++ sep ++ jsJoin sep rest

/-- JS `String.trim()` on a character list. -/
def jsTrim (cs : List Char) : List Char :=
  ((cs.dropWhile jsWhitespace).reverse.dropWhile jsWhitespace).reverse

/-- Concatenation of a list of strings with no separator (the way `getInfo`
accumulates `xml += lines[i]`). -/
def concatAll : List String → String
  | [] => ""
  | s :: rest => s ++ concatAll rest

/-- The module's blank-line test `lines[i].match(/\S/g)` is truthy exactly when
the line has a non-whitespace character. -/
def nonBlank (l : String) : Bool :=
  l.data.any (fun c => !(jsWhitespace c))

/-! ## Q deferred / promise model -/

/-- One `resolve`/`reject` call on a Q deferred. -/
inductive Settle (α : Type) where
  | resolveS (value : α)
  | rejectS (err : String)
deriving DecidableEq

/-- A Q deferred settles at the first `resolve`/`reject` call; subsequent
calls are ignored.  Given the ordered list of settle calls a piece of code
makes, the promise's observable outcome is the first one. -/
def promiseOutcome {α : Type} (settles : List (Settle α)) : Option (Settle α) :=
  settles.head?

/-! ## Data model of `CordovaProject.ts` -/

/-- The project handle: a thin wrapper around a directory path (`_path`). -/
structure CordovaProject where
  path : String
deriving DecidableEq

structure CordovaPluginInfo where
  id : String
  version : String
  name : String
deriving DecidableEq

structure CordovaPlatformInfo where
  id : String
  version : String
deriving DecidableEq

structure CordovaActionResult where
  output : String
  statusCode : Int
deriving DecidableEq

structure CordovaProjectInfo where
  config : String
  pluginNames : List String
deriving DecidableEq

/-! ## `open` (lines 143-156) -/

/-- The `NotACordovaProject` rejection value used by `open`. -/
def notACordovaMsg : String := "The selected path is not a Cordova application."

/-- The settle calls `open`'s `fs.stat` callback makes, in order.  `statErr`
records whether `fs.stat` reported the descriptor file `config.xml` absent or
inaccessible.  On a stat error the callback first rejects, then (because the
early `return` is missing in the source) still calls `resolve`. -/
def openSettles (statErr : Bool) (directoryName : String) : List (Settle CordovaProject) :=
  (if statErr then [Settle.rejectS notACordovaMsg] else []) ++ [Settle.resolveS ⟨directoryName⟩]

/-- The outcome `open`'s caller observes on its promise. -/
def openResult (statErr : Bool) (directoryName : String) : Option (Settle CordovaProject) :=
  promiseOutcome (openSettles statErr directoryName)

/-! ## `checkForUpdates` (lines 373-379) -/

/-- `checkForUpdates` rejects immediately and unconditionally. -/
def checkForUpdatesSettles (_proj : CordovaProject) : List (Settle (List CordovaPlatformInfo)) :=
  [Settle.rejectS "Not yet implemented."]

/-! ## Child-process model and the execution primitives (lines 381-449) -/

/-- The terminal event of a spawned child process: a normal `exit` with an
integer code, or a spawn-level `error` (e.g. executable not found) carrying
the raw error. -/
inductive ProcTerminal where
  | exited (code : Int)
  | errored (err : String)
deriving DecidableEq

/-- One subprocess run: the stdout chunks delivered to the `data` handler (in
order) and the terminal event. -/
structure ProcRun where
  chunks : List String
  terminal : ProcTerminal
deriving DecidableEq

/-- The accumulated stdout buffer: `outBuffer += text` over all chunks. -/
def runOutput (chunks : List String) : String :=
  chunks.foldl (fun acc t => acc ++ t) ""

/-- `wrapVoidAction`'s settlement, as a function of the subprocess behaviour:
on `exit` it resolves `{output, statusCode}` (the source has an
`if (code === 0)` whose two branches both resolve); on a spawn error it
rejects with the raw error. -/
def wrapVoidAction (run : ProcRun) : Except String CordovaActionResult :=
  match run.terminal with
  | ProcTerminal.errored e => Except.error e
  | ProcTerminal.exited code =>
    if code = 0 then Except.ok ⟨runOutput run.chunks, 0⟩
    else Except.ok ⟨runOutput run.chunks, code⟩

/-- `wrapStringAction`'s settlement: identical spawn/buffer behaviour, but on
`exit` it resolves just the buffer.  (In the source the exit handler tests
`e.code === 0` where `e` is the numeric exit code, so the test is never true,
but both branches resolve `outBuffer` anyway.) -/
def wrapStringAction (run : ProcRun) : Except String String :=
  match run.terminal with
  | ProcTerminal.errored e => Except.error e
  | ProcTerminal.exited _ => Except.ok (runOutput run.chunks)

/-! ## `create` (lines 101-141) -/

/-- JS truthiness of an optional string argument: `undefined` and `""` are
falsy. -/
def jsTruthyStr : Option String → Bool
  | none => false
  | some s => !s.isEmpty

/-- The argument list `create` builds: `['create', name]`, then `push(id)` and
`push(title)` guarded by JS truthiness. -/
def createArgs (name : String) (id title : Option String) : List String :=
  let args := ["create", name]
  let args := if jsTruthyStr id then args ++ [id.getD ""] else args
  let args := if jsTruthyStr title then args ++ [title.getD ""] else args
  args

/-- Node's `path.join('.', name)`: for a plain directory name Node normalises
`./name` to `name`, so the handle produced for the created subdirectory holds
the bare name. -/
def pathJoinDot (name : String) : String := name

/-- The possible settlements of `create`'s promise. -/
inductive CreateResult where
  | ok (proj : CordovaProject)
  | spawnFailed (err : String)
  | creationFailed (code : Int) (output : String)
  | openFailed (err : String)
deriving DecidableEq

/-- `create`'s settlement as a function of the scaffolding subprocess's
behaviour and of whether the subsequent `open` of `./<name>` hits a stat
error.  Spawn error rejects with the raw error (`SpawnFailed`); nonzero exit
rejects with `{error: code, output}` (`CreationFailed`); exit 0 delegates to
`open` and propagates its outcome. -/
def create (name : String) (_id _title : Option String) (run : ProcRun) (statErr : Bool) :
    CreateResult :=
  match run.terminal with
  | ProcTerminal.errored e => CreateResult.spawnFailed e
  | ProcTerminal.exited code =>
    if code = 0 then
      match openResult statErr (pathJoinDot name) with
      | some (Settle.resolveS proj) => CreateResult.ok proj
      | some (Settle.rejectS e) => CreateResult.openFailed e
      | none => CreateResult.openFailed notACordovaMsg
    else CreateResult.creationFailed code (runOutput run.chunks)

/-! ## Command construction (lines 253-293, 324-371) -/

structure PluginAddOptions where
  searchPaths : Option (List String)
  noRegistry : Bool
  link : Bool
  save : Bool
  shrinkwrap : Bool
  experimentalBrowserify : Bool
deriving DecidableEq

structure ComponentRemoveOptions where
  save : Bool
deriving DecidableEq

structure PlatformAddOptions where
  useGit : Bool
  save : Bool
  link : Bool
deriving DecidableEq

/-- The search-path separator: `';'` when `process.platform` is a Windows
platform, `':'` otherwise (`isWindows`, lines 75-77). -/
def sepForTarget (win : Bool) : String := if win then ";" else ":"

/-- The command string `addPlugin` builds (lines 253-282).  Note the source
appends `' --searchpath "'` with an opening double quote that is never
closed. -/
def addPluginCmd (win : Bool) (searchSpec : String) (options : Option PluginAddOptions) :
    String :=
  let cmd := "cordova plugin add " ++ searchSpec
  match options with
  | none => cmd
  | some o =>
    let cmd := match o.searchPaths with
      | none => cmd
      | some ps => cmd ++ " --searchpath \"" ++ jsJoin (sepForTarget win) ps
    let cmd := if o.noRegistry then cmd ++ " --noregistry" else cmd
    let cmd := if o.link then cmd ++ " --link" else cmd
    let cmd := if o.save then cmd ++ " --save" else cmd
    let cmd := if o.shrinkwrap then cmd ++ " --shrinkwrap" else cmd
    let cmd := if o.experimentalBrowserify then cmd ++ " --browserify" else cmd
    cmd

/-- The command string `removePlugin` builds (lines 284-293). -/
def removePluginCmd (pluginId : String) (options : Option ComponentRemoveOptions) : String :=
  let cmd := "cordova plugin remove " ++ pluginId
  match options with
  | none => cmd
  | some o => if o.save then cmd ++ " --save" else cmd

/-- The command string `addPlatform` builds (lines 324-341). -/
def addPlatformCmd (searchSpec : String) (options : Option PlatformAddOptions) : String :=
  let cmd := "cordova platform add " ++ searchSpec
  match options with
  | none => cmd
  | some o =>
    let cmd := if o.useGit then cmd ++ " --usegit" else cmd
    let cmd := if o.save then cmd ++ " --save" else cmd
    let cmd := if o.link then cmd ++ " --link" else cmd
    cmd

/-- The command string `removePlatform` builds (lines 343-352). -/
def removePlatformCmd (name : String) (options : Option ComponentRemoveOptions) : String :=
  let cmd := "cordova platform remove " ++ name
  match options with
  | none => cmd
  | some o => if o.save then cmd ++ " --save" else cmd

/-- The command string `update` builds (lines 354-371).  The source consults
only `useGit` and `save`; the `link` field of `PlatformAddOptions` is never
read here. -/
def updateCmd (name : Option String) (options : Option PlatformAddOptions) : String :=
  let cmd := "cordova platform update"
  let cmd := if jsTruthyStr name then cmd ++ (" " ++ name.getD "") else cmd
  match options with
  | none => cmd
  | some o =>
    let cmd := if o.useGit then cmd ++ " --usegit" else cmd
    let cmd := if o.save then cmd ++ " --save" else cmd
    cmd

/-- Spec-side helper: the flag text contributed by one boolean option. -/
def flagIf (b : Bool) (flag : String) : String := if b then flag else ""

/-- Spec-side helper: the text contributed by a (JS-truthy) `searchPaths`
option, as the source emits it: `--searchpath`, an unterminated opening
double quote, then the paths joined with the target's separator. -/
def searchPathFlag (win : Bool) : Option (List String) → String
  | none => ""
  | some ps => " --searchpath \"" ++ jsJoin (sepForTarget win) ps

/-! ## `getPlugins` (lines 229-251)

Each line of `plugin list` output is matched against the JS regular
expression `/(.+?) (.+?) "(.+?)"$/`.  The pattern is anchored at the end but
not at the start; since `.` matches every character of a newline-free line,
a match anywhere implies a match whose first group starts at index 0, so the
leftmost-first JS search always starts the first group at the beginning of
the line.  The lazy quantifiers pick the shortest first group (then the
shortest second group) that admits a completion. -/

/-- The trailing part `(.+?)"$` of the plugin regex: succeeds exactly when
the remaining text is a nonempty group followed by a final `"`. -/
def quoteTailMatch (cs : List Char) : Option (List Char) :=
  match cs.reverse with
  | '"' :: c :: rest => some ((c :: rest).reverse)
  | _ => none

/-- The part `(.+?) "(.+?)"$` of the plugin regex: the second group grows
lazily until it is followed by a space, a quote, and a successful tail
match; `accRev` holds the group collected so far, reversed. -/
def pluginMatchG2 (accRev : List Char) : List Char → Option (List Char × List Char)
  | [] => none
  | c :: rest =>
    match rest with
    | ' ' :: '"' :: tail =>
      match quoteTailMatch tail with
      | some g3 => some ((c :: accRev).reverse, g3)
      | none => pluginMatchG2 (c :: accRev) rest
    | _ => pluginMatchG2 (c :: accRev) rest

/-- The full plugin regex `/(.+?) (.+?) "(.+?)"$/`: the first group grows
lazily until it is followed by a space and a successful match of the rest. -/
def pluginMatchG1 (accRev : List Char) : List Char → Option (List Char × List Char × List Char)
  | [] => none
  | c :: rest =>
    match rest with
    | ' ' :: tail =>
      match pluginMatchG2 [] tail with
      | some (g2, g3) => some ((c :: accRev).reverse, g2, g3)
      | none => pluginMatchG1 (c :: accRev) rest
    | _ => pluginMatchG1 (c :: accRev) rest

/-- The record `getPlugins` pushes for a line, when the regex matches. -/
def pluginRecOfLine (line : String) : Option CordovaPluginInfo :=
  (pluginMatchG1 [] line.data).map (fun g => ⟨String.mk g.1, String.mk g.2.1, String.mk g.2.2⟩)

/-- The `forEach`/`push` loop of `getPlugins` over the split lines. -/
def pluginsOfLines (ls : List String) : List CordovaPluginInfo :=
  ls.filterMap pluginRecOfLine

/-- `getPlugins`'s parse of the captured `plugin list` output. -/
def getPluginsParse (output : String) : List CordovaPluginInfo :=
  pluginsOfLines (jsLines output)

/-! ## `getPlatforms` (lines 296-322) -/

/-- The pair regex `/(.+?) (.+?)$/`: the first group grows lazily until it is
followed by a space and a nonempty remainder, which the end-anchored lazy
second group then swallows whole. -/
def pairMatch (accRev : List Char) : List Char → Option (List Char × List Char)
  | [] => none
  | c :: rest =>
    match rest with
    | ' ' :: d :: tail => some ((c :: accRev).reverse, d :: tail)
    | _ => pairMatch (c :: accRev) rest

/-- The record `getPlatforms` pushes for one trimmed comma-separated entry. -/
def platformRecOfPair (p : List Char) : Option CordovaPlatformInfo :=
  (pairMatch [] p).map (fun g => ⟨String.mk g.1, String.mk g.2⟩)

/-- The marker `getPlatforms` scans for at the start of a line. -/
def installedMarker : String := "Installed platforms: "

/-- The records one line contributes: a line whose `indexOf` of the marker is
`0` has its remainder split on commas, each entry trimmed and matched;
every other line contributes nothing. -/
def platLineRecords (line : String) : List CordovaPlatformInfo :=
  if jsIndexOf installedMarker line = 0 then
    ((splitCh ',' (line.data.drop installedMarker.data.length)).map jsTrim).filterMap
      platformRecOfPair
  else []

/-- The `forEach` loop of `getPlatforms` over the split lines, appending the
records of every marker line in order. -/
def platformsOfLines (ls : List String) : List CordovaPlatformInfo :=
  (ls.map platLineRecords).flatten

/-- `getPlatforms`'s parse of the captured `platform list` output. -/
def getPlatformsParse (output : String) : List CordovaPlatformInfo :=
  platformsOfLines (jsLines output)

/-! ## `getInfo` (lines 195-226) -/

def containsWidget (l : String) : Bool := containsSub "</widget>" l

def containsPluginsColon (l : String) : Bool := containsSub "Plugins:" l

/-- Pass 1 of `getInfo`: accumulate `xml += lines[i]` and break (inclusive) at
the first line containing the widget-closing tag.  Returns the accumulated
fragment and the remaining lines, starting at the break line itself (the
index `i` is reused by pass 2 without being advanced). -/
def infoPass1 : List String → String × List String
  | [] => ("", [])
  | l :: rest =>
    if containsWidget l then (l, l :: rest)
    else
      let r := infoPass1 rest
      (l ++ r.1, r.2)

/-- Pass 2 of `getInfo`, with the two state booleans of the source:
while `looking`, scan for a line containing `Plugins:`; afterwards
(`enumerating`) collect every non-blank line. -/
def infoPass2 (looking enumerating : Bool) : List String → List String
  | [] => []
  | l :: rest =>
    if looking then
      if containsPluginsColon l then infoPass2 false true rest
      else infoPass2 looking enumerating rest
    else if enumerating then
      if nonBlank l then l :: infoPass2 looking enumerating rest
      else infoPass2 looking enumerating rest
    else infoPass2 looking enumerating rest

/-- `getInfo`'s parse of the captured `info` output. -/
def getInfoParse (output : String) : CordovaProjectInfo :=
  let lines := jsLines output
  let p1 := infoPass1 lines
  ⟨p1.1, infoPass2 true false p1.2⟩

/-! Spec-side combinators, written from the specification's wording, used to
characterise the two passes of `getInfo`. -/

/-- All lines up to and including the first line satisfying `p` (all lines
when none does). -/
def upToIncl (p : String → Bool) : List String → List String
  | [] => []
  | l :: rest => if p l then [l] else l :: upToIncl p rest

/-- The suffix starting at the first line satisfying `p` (empty when none
does). -/
def fromFirstIncl (p : String → Bool) : List String → List String
  | [] => []
  | l :: rest => if p l then l :: rest else fromFirstIncl p rest

/-- The lines after the first line satisfying `p`, or `none` when no line
does. -/
def afterFirst (p : String → Bool) : List String → Option (List String)
  | [] => none
  | l :: rest => if p l then some rest else afterFirst p rest

/-- Spec-side `config`: the concatenation of every line up to and including
the first line containing the widget-closing tag. -/
def specInfoConfig (ls : List String) : String :=
  concatAll (upToIncl containsWidget ls)

/-- Spec-side `pluginNames`: the non-blank lines following the first line (at
or after the widget-closing line) that contains `Plugins:`. -/
def specInfoPlugins (ls : List String) : List String :=
  match afterFirst containsPluginsColon (fromFirstIncl containsWidget ls) with
  | some rest => rest.filter nonBlank
  | none => []

/-! ## Helper lemmas -/

theorem leadsWith_append (p r : List Char) : leadsWith p (p ++ r) = true := by
  induction p with
  | nil => rfl
  | cons a as ih => simp [leadsWith, ih]

theorem firstOccur_self_append (pat rest : List Char) (h : pat ≠ []) :
    firstOccur pat (pat ++ rest) = some 0 := by
  cases pat with
  | nil => exact absurd rfl h
  | cons a as =>
    have hl := leadsWith_append (a :: as) rest
    simp only [List.cons_append] at hl
    simp [firstOccur, hl]

theorem infoPass2_enum (ls : List String) : infoPass2 false true ls = ls.filter nonBlank := by
  induction ls with
  | nil => rfl
  | cons l rest ih =>
    simp only [infoPass2, List.filter_cons]
    cases h : nonBlank l <;> simp [h, ih]

theorem infoPass2_looking (ls : List String) :
    infoPass2 true false ls =
      (match afterFirst containsPluginsColon ls with
       | some rest => rest.filter nonBlank
       | none => []) := by
  induction ls with
  | nil => rfl
  | cons l rest ih =>
    cases h : containsPluginsColon l
    · simp [infoPass2, afterFirst, h, ih]
    · simp [infoPass2, afterFirst, h, infoPass2_enum]

theorem infoPass1_eq (ls : List String) :
    infoPass1 ls = (concatAll (upToIncl containsWidget ls), fromFirstIncl containsWidget ls) := by
  induction ls with
  | nil => rfl
  | cons l rest ih =>
    cases h : containsWidget l
    · simp [infoPass1, upToIncl, fromFirstIncl, h, ih, concatAll]
    · simp [infoPass1, upToIncl, fromFirstIncl, h, concatAll, String.append_empty]

theorem upToIncl_of_none (p : String → Bool) (ls : List String)
    (h : ∀ l ∈ ls, p l = false) : upToIncl p ls = ls := by
  induction ls with
  | nil => rfl
  | cons l rest ih =>
    have hl := h l (List.mem_cons_self l rest)
    simp [upToIncl, hl, ih (fun x hx => h x (List.mem_cons_of_mem l hx))]

theorem fromFirstIncl_of_none (p : String → Bool) (ls : List String)
    (h : ∀ l ∈ ls, p l = false) : fromFirstIncl p ls = [] := by
  induction ls with
  | nil => rfl
  | cons l rest ih =>
    have hl := h l (List.mem_cons_self l rest)
    simp [fromFirstIncl, hl, ih (fun x hx => h x (List.mem_cons_of_mem l hx))]

theorem concatAll_data (ls : List String) :
    (concatAll ls).data = (ls.map String.data).flatten := by
  induction ls with
  | nil => rfl
  | cons l rest ih => simp [concatAll, String.data_append, ih]

theorem splitCh_ne_nil (sep : Char) (cs : List Char) : splitCh sep cs ≠ [] := by
  induction cs with
  | nil => simp [splitCh]
  | cons c rest ih =>
    cases hc : c == sep
    · simp only [splitCh, hc, Bool.false_eq_true, if_false]
      cases hs : splitCh sep rest <;> simp
    · simp [splitCh, hc]

theorem sep_not_mem_of_mem_splitCh (sep : Char) (cs : List Char) :
    ∀ piece ∈ splitCh sep cs, sep ∉ piece := by
  induction cs with
  | nil =>
    intro piece h
    simp [splitCh] at h
    subst h; simp
  | cons c rest ih =>
    intro piece h
    cases hc : c == sep
    · simp only [splitCh, hc, Bool.false_eq_true, if_false] at h
      cases hs : splitCh sep rest with
      | nil => exact absurd hs (splitCh_ne_nil sep rest)
      | cons q qs =>
        rw [hs] at h
        rcases List.mem_cons.mp h with h | h
        · subst h
          intro hmem
          rcases List.mem_cons.mp hmem with h | h
          · exact absurd (beq_iff_eq.mpr h.symm) (by simp [hc])
          · exact ih q (by rw [hs]; exact List.mem_cons_self q qs) h
        · exact ih piece (by rw [hs]; exact List.mem_cons_of_mem q h)
    · simp only [splitCh, hc, if_true] at h
      rcases List.mem_cons.mp h with h | h
      · subst h; simp
      · exact ih piece h

theorem mem_of_mem_upToIncl (p : String → Bool) (ls : List String) :
    ∀ l ∈ upToIncl p ls, l ∈ ls := by
  induction ls with
  | nil => intro l h; simp [upToIncl] at h
  | cons x rest ih =>
    intro l h
    cases hx : p x
    · simp only [upToIncl, hx, Bool.false_eq_true, if_false] at h
      rcases List.mem_cons.mp h with h | h
      · exact h ▸ List.mem_cons_self x rest
      · exact List.mem_cons_of_mem x (ih l h)
    · simp only [upToIncl, hx, if_true] at h
      rcases List.mem_cons.mp h with h | h
      · exact h ▸ List.mem_cons_self x rest
      · simp at h

theorem newline_not_mem_jsLines (out : String) (l : String) (h : l ∈ jsLines out) :
    '\n' ∉ l.data := by
  simp only [jsLines, List.mem_map] at h
  rcases h with ⟨cs, hcs, rfl⟩
  exact sep_not_mem_of_mem_splitCh '\n' out.data cs hcs

/-! ## Claim theorems -/

/-- C1: for a directory whose descriptor file `config.xml` is absent or
inaccessible (`statErr = true`), `open`'s callback first rejects with the
`NotACordovaProject` message (and, lacking an early return, then calls
`resolve`, which is a no-op on the settled Q deferred), so the promise's one
and only observable outcome is the rejection: no `CordovaProject` handle is
ever delivered. -/
theorem open_missing_descriptor_rejects (directoryName : String) :
    openSettles true directoryName =
      [Settle.rejectS notACordovaMsg, Settle.resolveS ⟨directoryName⟩]
    ∧ openResult true directoryName = some (Settle.rejectS notACordovaMsg) :=
  ⟨rfl, rfl⟩

/-- C2 (amended): for every combination of option flags, each command builder
produces exactly the flag texts of its truthy options, in the source's fixed
order with no duplication — except that `update` consults only `useGit` and
`save` (its `link` option is ignored), and `addPlugin`'s `--searchpath` value
is a legacy unterminated opening double quote followed by the paths joined
with `';'` on the Windows target and `':'` otherwise. -/
theorem command_flag_construction :
    (∀ (win : Bool) (searchSpec : String) (o : PluginAddOptions),
        addPluginCmd win searchSpec (some o) =
          "cordova plugin add " ++ searchSpec ++ searchPathFlag win o.searchPaths
            ++ flagIf o.noRegistry " --noregistry" ++ flagIf o.link " --link"
            ++ flagIf o.save " --save" ++ flagIf o.shrinkwrap " --shrinkwrap"
            ++ flagIf o.experimentalBrowserify " --browserify")
    ∧ (∀ (searchSpec : String) (o : PlatformAddOptions),
        addPlatformCmd searchSpec (some o) =
          "cordova platform add " ++ searchSpec ++ flagIf o.useGit " --usegit"
            ++ flagIf o.save " --save" ++ flagIf o.link " --link")
    ∧ (∀ (pluginId : String) (o : ComponentRemoveOptions),
        removePluginCmd pluginId (some o) =
          "cordova plugin remove " ++ pluginId ++ flagIf o.save " --save")
    ∧ (∀ (name : String) (o : ComponentRemoveOptions),
        removePlatformCmd name (some o) =
          "cordova platform remove " ++ name ++ flagIf o.save " --save")
    ∧ (∀ (name : Option String) (o : PlatformAddOptions),
        updateCmd name (some o) =
          "cordova platform update" ++ (if jsTruthyStr name then " " ++ name.getD "" else "")
            ++ flagIf o.useGit " --usegit" ++ flagIf o.save " --save") := by
  refine ⟨?_, ?_, ?_, ?_, ?_⟩
  · intro win searchSpec o
    obtain ⟨sp, nr, lk, sv, sw, eb⟩ := o
    cases sp <;> cases nr <;> cases lk <;> cases sv <;> cases sw <;> cases eb <;>
      simp [addPluginCmd, searchPathFlag, flagIf, String.append_assoc, String.append_empty]
  · intro searchSpec o
    obtain ⟨ug, sv, lk⟩ := o
    cases ug <;> cases sv <;> cases lk <;>
      simp [addPlatformCmd, flagIf, String.append_assoc, String.append_empty]
  · intro pluginId o
    obtain ⟨sv⟩ := o
    cases sv <;> simp [removePluginCmd, flagIf, String.append_empty]
  · intro name o
    obtain ⟨sv⟩ := o
    cases sv <;> simp [removePlatformCmd, flagIf, String.append_empty]
  · intro name o
    obtain ⟨ug, sv, lk⟩ := o
    cases hn : jsTruthyStr name <;> cases ug <;> cases sv <;>
      simp [updateCmd, flagIf, hn, String.append_assoc, String.append_empty]

/-- C2 (counterexample to the claim as stated): with `searchPaths = ["a","b"]`
on a non-Windows target, the constructed command does not carry
`--searchpath a:b` as the claim prescribes — the emitted value starts with an
unterminated opening double quote; and `update` with a truthy `link` option
emits no `--link` flag at all. -/
theorem command_flag_claim_counterexample :
    ((addPluginCmd false "org.apache.cordova.camera"
        (some ⟨some ["a", "b"], false, false, false, false, false⟩)
      == "cordova plugin add org.apache.cordova.camera --searchpath a:b") = false)
    ∧ addPluginCmd false "org.apache.cordova.camera"
        (some ⟨some ["a", "b"], false, false, false, false, false⟩)
      = "cordova plugin add org.apache.cordova.camera --searchpath \"a:b"
    ∧ updateCmd (some "android") (some ⟨true, false, true⟩)
      = "cordova platform update android --usegit"
    ∧ (containsSub "--link" (updateCmd (some "android") (some ⟨true, false, true⟩))) = false := by
  decide

/-- C3: `getPlugins` produces exactly one record per regex-matching line of
the split output, in order (line processing distributes over append and each
single line contributes the record of its match, or nothing); the line
`cordova-plugin-camera 2.1.0 "Camera"` yields exactly the expected record,
and output whose lines never match yields the empty list. -/
theorem getPlugins_line_parsing :
    (∀ ls₁ ls₂ : List String,
        pluginsOfLines (ls₁ ++ ls₂) = pluginsOfLines ls₁ ++ pluginsOfLines ls₂)
    ∧ (∀ l : String, pluginsOfLines [l] = (pluginRecOfLine l).toList)
    ∧ getPluginsParse "cordova-plugin-camera 2.1.0 \"Camera\"" =
        [⟨"cordova-plugin-camera", "2.1.0", "Camera"⟩]
    ∧ getPluginsParse "No plugins added" = [] := by
  refine ⟨?_, ?_, by decide, by decide⟩
  · intro ls₁ ls₂
    simp [pluginsOfLines, List.filterMap_append]
  · intro l
    cases h : pluginRecOfLine l <;> simp [pluginsOfLines, h]

/-- C4: `getPlatforms` processes lines independently (distributing over
append), a line that is the marker followed by a remainder contributes the
records of the comma-split, trimmed, pair-matched entries of that remainder,
any line not starting with the marker contributes nothing, and the
documented example line yields `android 6.0.0` and `ios 4.3.0` in order. -/
theorem getPlatforms_line_parsing :
    (∀ ls₁ ls₂ : List String,
        platformsOfLines (ls₁ ++ ls₂) = platformsOfLines ls₁ ++ platformsOfLines ls₂)
    ∧ (∀ rest : List Char,
        platLineRecords (String.mk (installedMarker.data ++ rest)) =
          ((splitCh ',' rest).map jsTrim).filterMap platformRecOfPair)
    ∧ (∀ line : String, ¬ jsIndexOf installedMarker line = 0 → platLineRecords line = [])
    ∧ getPlatformsParse
        "Installed platforms: android 6.0.0, ios 4.3.0\nAvailable platforms: amazon-fireos" =
        [⟨"android", "6.0.0"⟩, ⟨"ios", "4.3.0"⟩] := by
  refine ⟨?_, ?_, ?_, by decide⟩
  · intro ls₁ ls₂
    simp [platformsOfLines, List.map_append, List.flatten_append]
  · intro rest
    have hidx : jsIndexOf installedMarker (String.mk (installedMarker.data ++ rest)) = 0 := by
      have h0 := firstOccur_self_append installedMarker.data rest (by decide)
      simp [jsIndexOf, h0]
    rw [platLineRecords, if_pos hidx]
    have hdata : (String.mk (installedMarker.data ++ rest)).data =
        installedMarker.data ++ rest := rfl
    rw [hdata, List.drop_left]
  · intro line h
    rw [platLineRecords, if_neg h]

/-- C4 witness: a line not starting with the marker contributes no record. -/
theorem getPlatforms_line_parsing_witness :
    ¬ jsIndexOf installedMarker "No platforms added." = 0
    ∧ platLineRecords "No platforms added." = [] :=
  ⟨by decide, getPlatforms_line_parsing.2.2.1 "No platforms added." (by decide)⟩

/-- C5: `getInfo` parses in two passes: the config is every line up to and
including the first line containing the widget-closing tag, and the plugin
names are exactly the non-blank lines following the first line (at or after
the widget-closing line) containing `Plugins:`, in order; on the documented
example the plugin names are `plugin-a` and `plugin-b`. -/
theorem getInfo_two_pass :
    (∀ output : String,
        getInfoParse output =
          ⟨specInfoConfig (jsLines output), specInfoPlugins (jsLines output)⟩)
    ∧ getInfoParse "<widget id=\"app\"></widget>\nPlugins:\nplugin-a\nplugin-b\n" =
        ⟨"<widget id=\"app\"></widget>", ["plugin-a", "plugin-b"]⟩ := by
  refine ⟨?_, by decide⟩
  intro output
  simp [getInfoParse, infoPass1_eq, infoPass2_looking, specInfoConfig, specInfoPlugins]

/-- C6: on process exit both execution primitives resolve — the void action
with the accumulated stdout and the exit code (zero or not), the string
action with just the accumulated stdout — and on a spawn-level error both
reject with the raw error. -/
theorem wrap_actions_settlement (chunks : List String) :
    (∀ code : Int, wrapVoidAction ⟨chunks, ProcTerminal.exited code⟩ =
        Except.ok ⟨runOutput chunks, code⟩)
    ∧ (∀ code : Int, wrapStringAction ⟨chunks, ProcTerminal.exited code⟩ =
        Except.ok (runOutput chunks))
    ∧ (∀ e : String, wrapVoidAction ⟨chunks, ProcTerminal.errored e⟩ = Except.error e)
    ∧ (∀ e : String, wrapStringAction ⟨chunks, ProcTerminal.errored e⟩ = Except.error e) := by
  refine ⟨?_, fun code => rfl, fun e => rfl, fun e => rfl⟩
  intro code
  by_cases h : code = 0
  · subst h; rfl
  · simp [wrapVoidAction, h]

/-- C7: `create` passes the positional arguments `name [id] [title]` (the
optional ones only when truthy), and settles in exactly one way per call when
the scaffolded directory's descriptor is present: spawn error rejects with
the raw cause (`SpawnFailed`), exit 0 opens `./<name>` and delivers its
handle, and nonzero exit rejects with the exit code and captured output
(`CreationFailed`). -/
theorem create_outcome_trichotomy (name : String) (id title : Option String)
    (chunks : List String) :
    createArgs name id title =
        ["create", name] ++ (if jsTruthyStr id then [id.getD ""] else [])
          ++ (if jsTruthyStr title then [title.getD ""] else [])
    ∧ (∀ e : String, create name id title ⟨chunks, ProcTerminal.errored e⟩ false =
        CreateResult.spawnFailed e)
    ∧ create name id title ⟨chunks, ProcTerminal.exited 0⟩ false =
        CreateResult.ok ⟨pathJoinDot name⟩
    ∧ (∀ code : Int, ¬ code = 0 →
        create name id title ⟨chunks, ProcTerminal.exited code⟩ false =
          CreateResult.creationFailed code (runOutput chunks)) := by
  refine ⟨?_, fun e => rfl, rfl, ?_⟩
  · cases hid : jsTruthyStr id <;> cases htitle : jsTruthyStr title <;>
      simp [createArgs, hid, htitle]
  · intro code h
    simp [create, h]

/-- C7 witness: a concrete nonzero-exit run rejects with `CreationFailed`
carrying the exit code and the captured output. -/
theorem create_outcome_trichotomy_witness :
    ¬ (5 : Int) = 0
    ∧ create "app" none none ⟨["scaffold output"], ProcTerminal.exited 5⟩ false =
        CreateResult.creationFailed 5 (runOutput ["scaffold output"]) :=
  ⟨by decide,
   (create_outcome_trichotomy "app" none none ["scaffold output"]).2.2.2 5 (by decide)⟩

/-- C8: `checkForUpdates` makes exactly one settle call — a rejection with
`Not yet implemented.` — for every handle, so its promise's outcome is that
rejection and it never resolves with a value. -/
theorem checkForUpdates_always_rejects (proj : CordovaProject) :
    checkForUpdatesSettles proj = [Settle.rejectS "Not yet implemented."]
    ∧ promiseOutcome (checkForUpdatesSettles proj) =
        some (Settle.rejectS "Not yet implemented.") :=
  ⟨rfl, rfl⟩

/-- C9: when no line of the output contains the widget-closing tag, pass 1 of
`getInfo` consumes every line into the config and leaves nothing for pass 2,
so the plugin names are empty even if a `Plugins:` section is present. -/
theorem getInfo_missing_widget (output : String)
    (h : ((jsLines output).all (fun l => !(containsWidget l))) = true) :
    getInfoParse output = ⟨concatAll (jsLines output), []⟩ := by
  have hall : ∀ l ∈ jsLines output, containsWidget l = false := by
    intro l hl
    have := List.all_eq_true.mp h l hl
    simpa using this
  simp [getInfoParse, infoPass1_eq, upToIncl_of_none _ _ hall,
    fromFirstIncl_of_none _ _ hall, infoPass2]

/-- C9 witness: output with a `Plugins:` section but no widget-closing tag
yields the full concatenation as config and no plugin names. -/
theorem getInfo_missing_widget_witness :
    ((jsLines "Plugins:\nplugin-a").all (fun l => !(containsWidget l))) = true
    ∧ getInfoParse "Plugins:\nplugin-a" =
        ⟨concatAll (jsLines "Plugins:\nplugin-a"), []⟩ :=
  ⟨by decide, getInfo_missing_widget "Plugins:\nplugin-a" (by decide)⟩

/-- C10: the config returned by `getInfo` is the concatenation of the
consumed lines with no delimiter, so it contains no newline character even
though each consumed line appears in it verbatim. -/
theorem getInfo_config_newline_free (output : String) :
    (getInfoParse output).config = concatAll (upToIncl containsWidget (jsLines output))
    ∧ ((getInfoParse output).config.data.all (fun c => !(c == '\n'))) = true := by
  have hconf : (getInfoParse output).config =
      concatAll (upToIncl containsWidget (jsLines output)) := by
    simp [getInfoParse, infoPass1_eq]
  refine ⟨hconf, ?_⟩
  rw [hconf, List.all_eq_true]
  intro c hc
  rw [concatAll_data] at hc
  rcases List.mem_flatten.mp hc with ⟨d, hd, hcd⟩
  rcases List.mem_map.mp hd with ⟨l, hl, rfl⟩
  have hlm : l ∈ jsLines output := mem_of_mem_upToIncl _ _ l hl
  have hnl : '\n' ∉ l.data := newline_not_mem_jsLines output l hlm
  have hne : c ≠ '\n' := fun hEq => hnl (hEq ▸ hcd)
  simp [hne]
